import Mathlib

/-!
Verification development for the service-binding-operator core
(`pkg/controller/servicebindingrequest`).

The Go sources are shallowly embedded:
- `olm.go` (OLM resolver over ClusterServiceVersion objects) is modelled over a
  generic dynamically-typed value `UVal` mirroring `unstructured.Unstructured`;
  the dynamic client is modelled by the list of CSV objects in the namespace
  (`OLM.csvList`) and a get-by-namespaced-name function (`OLM.getCSV`).
- `binder.go` (Binder) is modelled with typed workload objects: the value at
  the fixed nested path `spec.template.spec.containers` is either absent
  (`none`, the not-found branch of `NestedSlice`) or a list of containers.
  The kubernetes client state is passed explicitly as a store of objects and
  `client.Update` failures are injected through a function from object name to
  an optional error.

Errors are carried in `Except`/`Option` channels; a Go runtime panic
(nil-pointer dereference, failed type assertion) is a distinguished outcome.
-/

namespace SBO

/-- Dynamically-typed value, mirroring the generic interface payloads of
`unstructured.Unstructured`: strings, string-keyed maps and slices are the
only shapes the embedded code inspects. -/
inductive UVal where
  | str (s : String)
  | map (fields : List (String × UVal))
  | list (items : List UVal)

/-- Field access in a string-keyed map (Go map access; keys are unique, the
first binding wins). -/
def lookupField (fs : List (String × UVal)) (key : String) : Option UVal :=
  match fs with
  | [] => none
  | (k, v) :: rest => if k = key then some v else lookupField rest key

/-- Model of `unstructured.NestedFieldNoCopy`: walk the path through nested maps.
A missing key yields `ok none` (found = false); a non-map intermediate value
yields an error. -/
def nestedFieldNoCopy : UVal → List String → Except String (Option UVal)
  | v, [] => Except.ok (some v)
  | v, k :: rest =>
    match v with
    | UVal.map fs =>
      match lookupField fs k with
      | some v2 => nestedFieldNoCopy v2 rest
      | none => Except.ok none
    | _ => Except.error "value is not a map"

/-- Model of `unstructured.NestedSlice`: the value at the path, required to be a slice;
absence is `ok none`, a non-slice value at the path is an error. -/
def nestedSlice (v : UVal) (path : List String) : Except String (Option (List UVal)) :=
  match nestedFieldNoCopy v path with
  | Except.error e => Except.error e
  | Except.ok none => Except.ok none
  | Except.ok (some (UVal.list items)) => Except.ok (some items)
  | Except.ok (some _) => Except.error "value is not a slice"

/-- Model of Go `strings.ToLower` restricted to ASCII letters (the only
case-folding the embedded comparisons rely on). -/
def charToLower (c : Char) : Char :=
  if c.toNat ≥ 65 ∧ c.toNat ≤ 90 then Char.ofNat (c.toNat + 32) else c

/-- Lower-case every character of a string. -/
def stringsToLower (s : String) : String :=
  String.mk (s.toList.map charToLower)

/-- Embeds `schema.GroupVersionKind`. -/
structure GroupVersionKind where
  group : String
  version : String
  kind : String
deriving DecidableEq

/-- Embeds `schema.GroupResource`. -/
structure GroupResource where
  group : String
  resource : String
deriving DecidableEq

/-- Split a character list at the first dot, mirroring `strings.IndexRune`. -/
def splitAtFirstDot : List Char → Option (List Char × List Char)
  | [] => none
  | c :: rest =>
    if c = '.' then some ([], rest)
    else
      match splitAtFirstDot rest with
      | none => none
      | some (pre, post) => some (c :: pre, post)

/-- Model of `schema.ParseGroupResource` (the part of `schema.ParseResourceArg` used by
`extractGVKs`): everything before the first dot is the resource, everything
after it is the group; with no dot the group is empty. -/
def parseGroupResource (arg : String) : GroupResource :=
  match splitAtFirstDot arg.toList with
  | none => { group := "", resource := arg }
  | some (pre, post) => { group := String.mk post, resource := String.mk pre }

/-- The fields of `olmv1alpha1.CRDDescription` that the embedded code reads. -/
structure CRDDescription where
  name : String
  version : String
  kind : String
deriving DecidableEq

/-- Read one string field of an unstructured map during conversion: an absent
key gives the zero value, a non-string value is a conversion error. -/
def getStringField (fs : List (String × UVal)) (key : String) : Except String String :=
  match lookupField fs key with
  | none => Except.ok ""
  | some (UVal.str s) => Except.ok s
  | some _ => Except.error ("cannot convert field " ++ key)

/-- Conversion by `runtime.DefaultUnstructuredConverter.FromUnstructured` into a
`CRDDescription`: reads the top-level `name`, `version` and `kind` keys,
ignoring unknown keys (lenient conversion). -/
def fromUnstructuredCRD : UVal → Except String CRDDescription
  | UVal.map fs =>
    match getStringField fs "name" with
    | Except.error e => Except.error e
    | Except.ok n =>
      match getStringField fs "version" with
      | Except.error e => Except.error e
      | Except.ok v =>
        match getStringField fs "kind" with
        | Except.error e => Except.error e
        | Except.ok k => Except.ok { name := n, version := v, kind := k }
  | _ => Except.error "cannot convert non-map value to CRDDescription"

/-- The fixed path of owned CRD descriptors inside a CSV object. -/
def ownedPath : List String := ["spec", "customresourcedefinitions", "owned"]

/-- Each element of the owned slice is type-asserted to a map in Go
(a Go type assertion to a string-keyed map); a non-map element panics in Go,
modelled here in the error channel (no embedded claim exercises it). -/
def assertMaps : List UVal → Except String (List UVal)
  | [] => Except.ok []
  | UVal.map fs :: rest =>
    match assertMaps rest with
    | Except.error e => Except.error e
    | Except.ok us => Except.ok (UVal.map fs :: us)
  | _ :: _ => Except.error "interface conversion: not a map"

/-- Embeds `OLM.extractOwnedCRDs`: for each CSV, read the nested slice at
`spec.customresourcedefinitions.owned`; an error aborts, an absent path
contributes nothing, and present descriptors are appended in CSV order. -/
def extractOwnedCRDs : List UVal → Except String (List UVal)
  | [] => Except.ok []
  | csv :: rest =>
    match nestedSlice csv ownedPath with
    | Except.error e => Except.error e
    | Except.ok none => extractOwnedCRDs rest
    | Except.ok (some owned) =>
      match assertMaps owned with
      | Except.error e => Except.error e
      | Except.ok us =>
        match extractOwnedCRDs rest with
        | Except.error e => Except.error e
        | Except.ok more => Except.ok (us ++ more)

/-- Embeds `OLM.loopCRDDescritions` (source spelling kept): convert every
unstructured element to a `CRDDescription`, aborting on the first conversion
error; the per-element callback is reflected by returning the converted list
in order. -/
def loopCRDDescritions : List UVal → Except String (List CRDDescription)
  | [] => Except.ok []
  | u :: rest =>
    match fromUnstructuredCRD u with
    | Except.error e => Except.error e
    | Except.ok crd =>
      match loopCRDDescritions rest with
      | Except.error e => Except.error e
      | Except.ok crds => Except.ok (crd :: crds)

/-- Namespaced name of an object. -/
structure NamespacedName where
  ns : String
  name : String
deriving DecidableEq

/-- The OLM resolver: the dynamic client is modelled by the result of listing
the CSV objects of the namespace and by a get-by-namespaced-name view of the
store. -/
structure OLM where
  csvList : Except String (List UVal)
  getCSV : NamespacedName → Option UVal

/-- Embeds `OLM.listCSVs`. -/
def OLM.listCSVs (o : OLM) : Except String (List UVal) := o.csvList

/-- Embeds `OLM.ListCSVOwnedCRDs`: list the CSV objects, then extract their owned
CRD descriptors. -/
def OLM.ListCSVOwnedCRDs (o : OLM) : Except String (List UVal) :=
  match o.listCSVs with
  | Except.error e => Except.error e
  | Except.ok csvs => extractOwnedCRDs csvs

/-- The filtering callback of `OLM.SelectCRDByGVK`, fused with the conversion
loop: descriptors are converted in order and a descriptor is kept when its
kind matches the requested kind case-insensitively and, when the descriptor
declares a non-empty version, its version matches case-insensitively. -/
def selectCRDLoop (gvk : GroupVersionKind) : List UVal → Except String (List CRDDescription)
  | [] => Except.ok []
  | u :: rest =>
    match fromUnstructuredCRD u with
    | Except.error e => Except.error e
    | Except.ok crd =>
      match selectCRDLoop gvk rest with
      | Except.error e => Except.error e
      | Except.ok crds =>
        if ¬(stringsToLower crd.kind = stringsToLower gvk.kind) then Except.ok crds
        else if crd.version ≠ "" ∧ stringsToLower gvk.version ≠ stringsToLower crd.version then
          Except.ok crds
        else Except.ok (crd :: crds)

/-- Embeds `OLM.SelectCRDByGVK`: collect the matching descriptors, return `none`
when there is no match and the first collected descriptor otherwise. -/
def OLM.SelectCRDByGVK (o : OLM) (gvk : GroupVersionKind) :
    Except String (Option CRDDescription) :=
  match o.ListCSVOwnedCRDs with
  | Except.error e => Except.error e
  | Except.ok ownedCRDs =>
    match selectCRDLoop gvk ownedCRDs with
    | Except.error e => Except.error e
    | Except.ok crdDescriptions =>
      if crdDescriptions.length = 0 then Except.ok none
      else Except.ok crdDescriptions.head?

/-- Embeds `OLM.extractGVKs`: convert each given unstructured value to a
`CRDDescription` and build a GVK whose group is parsed from the descriptor
name as a resource argument, while version and kind are taken directly. -/
def extractGVKs (crdDescriptions : List UVal) : Except String (List GroupVersionKind) :=
  match loopCRDDescritions crdDescriptions with
  | Except.error e => Except.error e
  | Except.ok crds =>
    Except.ok (crds.map (fun crd =>
      { group := (parseGroupResource crd.name).group
        version := crd.version
        kind := crd.kind }))

/-- Embeds `OLM.ListGVKsFromCSVNamespacedName`: get one CSV object by namespaced
name and run `extractGVKs` over the singleton list holding the CSV object
itself (the owned descriptors are not extracted first). -/
def OLM.ListGVKsFromCSVNamespacedName (o : OLM) (namespacedName : NamespacedName) :
    Except String (List GroupVersionKind) :=
  match o.getCSV namespacedName with
  | none => Except.error "on reading CSV object"
  | some u => extractGVKs [u]

/-- Modelled from the spec: `listGVKsForPackagingObject` as section 4.5 words
it — fetch exactly one packaging object by namespaced name, extract its owned
descriptors from `spec.customresourcedefinitions.owned`, and map each
descriptor to a kind descriptor (group parsed from the descriptor name as a
resource argument, version and kind taken directly). This is the comparison
point for the behaviour of `OLM.ListGVKsFromCSVNamespacedName`. -/
def OLM.specListGVKsForPackagingObject (o : OLM) (namespacedName : NamespacedName) :
    Except String (List GroupVersionKind) :=
  match o.getCSV namespacedName with
  | none => Except.error "on reading CSV object"
  | some u =>
    match extractOwnedCRDs [u] with
    | Except.error e => Except.error e
    | Except.ok owned => extractGVKs owned

/-! ## Binder (`binder.go`) -/

/-- Embeds `corev1.SecretEnvSource` (only the local object reference name is read by
the embedded code). -/
structure SecretEnvSource where
  name : String
deriving DecidableEq

/-- Embeds `corev1.EnvFromSource`: the secret reference is a pointer in Go, hence an
`Option`; the config-map reference is carried to express entries that hold no
secret reference at all. -/
structure EnvFromSource where
  configMapRef : Option String
  secretRef : Option SecretEnvSource
deriving DecidableEq

/-- The entry `appendEnvFrom` appends for a given secret name. -/
def newEnvFromEntry (secret : String) : EnvFromSource :=
  { configMapRef := none, secretRef := some { name := secret } }

/-- The scanning loop of `Binder.appendEnvFrom`: each entry has its
`SecretRef` dereferenced with no nil check, so an entry with no secret
reference makes Go panic (`none` result); otherwise the scan reports whether
some entry already names the secret, stopping at the first hit. -/
def containsSecretRef : List EnvFromSource → String → Option Bool
  | [], _ => some false
  | env :: rest, secret =>
    match env.secretRef with
    | none => none
    | some sr => if sr.name = secret then some true else containsSecretRef rest secret

/-- Embeds `Binder.appendEnvFrom`: return the list unchanged when the secret is
already referenced, append a fresh entry at the end otherwise; `none` is the
nil-pointer panic of the scan. -/
def appendEnvFrom (envList : List EnvFromSource) (secret : String) :
    Option (List EnvFromSource) :=
  match containsSecretRef envList secret with
  | none => none
  | some true => some envList
  | some false => some (envList ++ [newEnvFromEntry secret])

/-- Embeds `corev1.Container` restricted to the field the embedded code mutates. -/
structure Container where
  envFrom : List EnvFromSource
deriving DecidableEq

/-- A workload object: identity plus the value found at the fixed nested path
`spec.template.spec.containers` (absent when the path is missing, mirroring
the found = false branch of `NestedSlice`). -/
structure UObject where
  name : String
  kind : String
  containers : Option (List Container)
deriving DecidableEq

/-- Errors surfaced by `Binder.update`. -/
inductive BinderError where
  /-- The object lacks the nested containers path: the formatted error names
  the path and the object kind. -/
  | unsupportedShape (path : List String) (kind : String)
  /-- An error returned by the kubernetes client, propagated verbatim. -/
  | storeError (msg : String)
deriving DecidableEq

/-- Outcome of one `update` pass: success, a returned error, or a Go runtime
panic (nil-pointer dereference inside `appendEnvFrom`). -/
inductive UpdateOutcome where
  | ok
  | err (e : BinderError)
  | nilDeref
deriving DecidableEq

/-- The fixed nested path `update` reads the container list from. -/
def nestedPath : List String := ["spec", "template", "spec", "containers"]

/-- The per-object container loop of `Binder.update`: each container is
converted, has `appendEnvFrom` applied with the binding secret name, and is
converted back in place. -/
def bindContainers (secret : String) : List Container → Option (List Container)
  | [] => some []
  | c :: rest =>
    match appendEnvFrom c.envFrom secret with
    | none => none
    | some l =>
      match bindContainers secret rest with
      | none => none
      | some rest2 => some ({ envFrom := l } :: rest2)

/-- Model of `client.Update` on the fake store: replace the object with a matching
name, leaving every other object untouched. -/
def storeUpdate : List UObject → UObject → List UObject
  | [], _ => []
  | x :: rest, o => (if x.name = o.name then o else x) :: storeUpdate rest o

/-- The object loop of `Binder.update`: for each object, require the nested
containers path, bind every container, then persist the whole object through
one store update; the first error or panic stops the loop, keeping the store
updates already performed. `updateFails` injects the error the client returns
when updating the named object, `none` meaning the update succeeds. -/
def updateLoop (secret : String) (updateFails : String → Option BinderError) :
    List UObject → List UObject → List UObject × UpdateOutcome
  | [], store => (store, UpdateOutcome.ok)
  | o :: rest, store =>
    match o.containers with
    | none => (store, UpdateOutcome.err (BinderError.unsupportedShape nestedPath o.kind))
    | some cs =>
      match bindContainers secret cs with
      | none => (store, UpdateOutcome.nilDeref)
      | some cs2 =>
        match updateFails o.name with
        | some e => (store, UpdateOutcome.err e)
        | none =>
          updateLoop secret updateFails rest
            (storeUpdate store { o with containers := some cs2 })

/-- Embeds the `v1alpha1.ServiceBindingRequest` application selector: the fields the
Binder reads. -/
structure ApplicationSelector where
  resourceKind : String
  matchLabels : List (String × String)

/-- The service binding request as seen by the Binder: metadata namespace and
name plus the application selector. -/
structure ServiceBindingRequest where
  ns : String
  name : String
  applicationSelector : ApplicationSelector

/-- The Binder: the request it is scoped to, plus the injected behaviour of
`client.Update` (an error per object name, `none` for success). -/
structure Binder where
  sbr : ServiceBindingRequest
  updateFails : String → Option BinderError

/-- Embeds `Binder.getResourceKind`: the lower-cased resource kind of the
application selector. -/
def Binder.getResourceKind (b : Binder) : String :=
  stringsToLower b.sbr.applicationSelector.resourceKind

/-- Embeds `Binder.getListGVK`: the fixed, closed table from the lower-cased
resource kind to the list GVK; everything else is an unsupported-kind
error naming the kind. -/
def Binder.getListGVK (b : Binder) : Except String GroupVersionKind :=
  let kind := b.getResourceKind
  if kind = "deploymentconfig" then
    Except.ok { group := "apps.openshift.io", version := "v1", kind := "DeploymentConfigList" }
  else if kind = "deployment" then
    Except.ok { group := "apps", version := "v1", kind := "DeploymentList" }
  else
    Except.error ("resource kind " ++ kind ++ " is not supported by this operator")

/-- Embeds `Binder.update`: run the object loop with the metadata name of the
service binding request as the injected secret name, over the given client
store. -/
def Binder.update (b : Binder) (objList store : List UObject) :
    List UObject × UpdateOutcome :=
  updateLoop b.sbr.name b.updateFails objList store

/-- All envFrom entries of a container list, in order. -/
def containersEnvEntries : List Container → List EnvFromSource
  | [] => []
  | c :: rest => c.envFrom ++ containersEnvEntries rest

/-- All envFrom entries reachable in one workload object. -/
def objEnvEntries (o : UObject) : List EnvFromSource :=
  match o.containers with
  | none => []
  | some cs => containersEnvEntries cs

/-- All envFrom entries reachable in a list of workload objects. -/
def storeEnvEntries : List UObject → List EnvFromSource
  | [] => []
  | o :: rest => objEnvEntries o ++ storeEnvEntries rest

/-! ## The descriptor filter as the spec words it, and concrete sample data -/

/-- The matching predicate of spec section 4.5 on converted descriptors: the
kind matches case-insensitively, and, only when the descriptor declares a
non-empty version, the version also matches case-insensitively. -/
def specMatchesGVK (gvk : GroupVersionKind) (crd : CRDDescription) : Bool :=
  (stringsToLower crd.kind == stringsToLower gvk.kind) &&
    (crd.version == "" || stringsToLower gvk.version == stringsToLower crd.version)

/-- An owned CRD descriptor as it appears inside a CSV object. -/
def dbOwnedDescriptor : UVal :=
  UVal.map
    [("name", UVal.str "databases.postgresql.example.com"),
     ("version", UVal.str "v1alpha1"),
     ("kind", UVal.str "Database")]

/-- A CSV object owning `dbOwnedDescriptor`, with the usual top-level keys of
a kubernetes object. -/
def sampleCSV : UVal :=
  UVal.map
    [("apiVersion", UVal.str "operators.coreos.com/v1alpha1"),
     ("kind", UVal.str "ClusterServiceVersion"),
     ("metadata",
       UVal.map
         [("name", UVal.str "db-operator.v0.0.1"),
          ("namespace", UVal.str "binder")]),
     ("spec",
       UVal.map
         [("customresourcedefinitions",
           UVal.map [("owned", UVal.list [dbOwnedDescriptor])])])]

/-- An OLM resolver over a store holding exactly `sampleCSV`. -/
def sampleOLM : OLM :=
  { csvList := Except.ok [sampleCSV]
    getCSV := fun nn =>
      if nn = { ns := "binder", name := "db-operator.v0.0.1" } then some sampleCSV else none }

/-- Two owned descriptors differing only in version, used to exercise the
descriptor selection. -/
def selectCSV : UVal :=
  UVal.map
    [("kind", UVal.str "ClusterServiceVersion"),
     ("spec",
       UVal.map
         [("customresourcedefinitions",
           UVal.map
             [("owned",
               UVal.list
                 [UVal.map
                    [("name", UVal.str "databases.postgresql.example.com"),
                     ("version", UVal.str "v1alpha1"),
                     ("kind", UVal.str "database")],
                  UVal.map
                    [("name", UVal.str "databases.postgresql.example.com"),
                     ("version", UVal.str "v2"),
                     ("kind", UVal.str "database")]])])])]

/-- An OLM resolver over a store holding exactly `selectCSV`. -/
def selectOLM : OLM :=
  { csvList := Except.ok [selectCSV]
    getCSV := fun _ => none }

/-- A deployment named after the binding request, with one container holding
no envFrom entries. -/
def sampleDeployment : UObject :=
  { name := "service-binding-request"
    kind := "Deployment"
    containers := some [{ envFrom := [] }] }

/-- A Binder whose request carries the mock selector of the tests and whose
client updates always succeed. -/
def sampleBinder : Binder :=
  { sbr :=
      { ns := "binder"
        name := "service-binding-request"
        applicationSelector :=
          { resourceKind := "Deployment"
            matchLabels := [("connects-to", "database"), ("environment", "binder")] } }
    updateFails := fun _ => none }

/-! ## Helper lemmas about `appendEnvFrom` -/

theorem appendEnvFrom_cases (envList out : List EnvFromSource) (secret : String)
    (h : appendEnvFrom envList secret = some out) :
    out = envList ∨ out = envList ++ [newEnvFromEntry secret] := by
  cases hc : containsSecretRef envList secret with
  | none => simp [appendEnvFrom, hc] at h
  | some b =>
    cases b with
    | true =>
      simp [appendEnvFrom, hc] at h
      exact Or.inl h.symm
    | false =>
      simp [appendEnvFrom, hc] at h
      exact Or.inr h.symm

theorem containsSecretRef_append_self (envList : List EnvFromSource) (secret : String)
    (h : containsSecretRef envList secret = some false) :
    containsSecretRef (envList ++ [newEnvFromEntry secret]) secret = some true := by
  induction envList with
  | nil => simp [containsSecretRef, newEnvFromEntry]
  | cons env rest ih =>
    cases he : env.secretRef with
    | none => simp [containsSecretRef, he] at h
    | some sr =>
      by_cases hn : sr.name = secret
      · simp [containsSecretRef, he, hn] at h
      · simp [containsSecretRef, he, hn] at h ⊢
        exact ih h

theorem containsSecretRef_isSome (envList : List EnvFromSource) (secret : String)
    (h : ∀ env, env ∈ envList → env.secretRef.isSome = true) :
    (containsSecretRef envList secret).isSome = true := by
  induction envList with
  | nil => rfl
  | cons env rest ih =>
    cases he : env.secretRef with
    | none =>
      have hmem := h env (List.mem_cons_self env rest)
      rw [he] at hmem
      simp at hmem
    | some sr =>
      by_cases hn : sr.name = secret
      · simp [containsSecretRef, he, hn]
      · simp [containsSecretRef, he, hn]
        exact ih (fun e he2 => h e (List.mem_cons_of_mem env he2))

/-! ## Claims about `appendEnvFrom` -/

/-- C3: applying `appendEnvFrom` twice with the same secret name yields a
list unchanged by the second application (so its length equals the length
after the first application), and when some entry already names the secret
the list is returned unchanged. -/
theorem appendEnvFrom_idempotent (envList l1 : List EnvFromSource) (secret : String)
    (h : appendEnvFrom envList secret = some l1) :
    appendEnvFrom l1 secret = some l1 ∧
      (containsSecretRef envList secret = some true → l1 = envList) := by
  cases hc : containsSecretRef envList secret with
  | none => simp [appendEnvFrom, hc] at h
  | some b =>
    cases b with
    | true =>
      simp [appendEnvFrom, hc] at h
      subst h
      exact ⟨by simp [appendEnvFrom, hc], fun _ => rfl⟩
    | false =>
      simp [appendEnvFrom, hc] at h
      constructor
      · rw [← h]
        simp [appendEnvFrom, containsSecretRef_append_self envList secret hc]
      · intro ht
        simp [hc] at ht

/-- Witness for C3: appending to the empty list and appending again. -/
theorem appendEnvFrom_idempotent_witness :
    appendEnvFrom [newEnvFromEntry "secret"] "secret" = some [newEnvFromEntry "secret"] ∧
      (containsSecretRef [] "secret" = some true → [newEnvFromEntry "secret"] = ([] : List EnvFromSource)) :=
  appendEnvFrom_idempotent [] [newEnvFromEntry "secret"] "secret" rfl

/-- C7: the output of `appendEnvFrom` begins with exactly the input entries
in their original order, and the only possible outputs are the unchanged
input or the input with the new entry appended last. -/
theorem appendEnvFrom_preserves_order (envList out : List EnvFromSource) (secret : String)
    (h : appendEnvFrom envList secret = some out) :
    out.take envList.length = envList ∧
      (out = envList ∨ out = envList ++ [newEnvFromEntry secret]) := by
  rcases appendEnvFrom_cases envList out secret h with h1 | h1
  · subst h1
    exact ⟨List.take_length _, Or.inl rfl⟩
  · subst h1
    exact ⟨List.take_left envList [newEnvFromEntry secret], Or.inr rfl⟩

/-- Witness for C7: appending a second, distinct secret reference. -/
theorem appendEnvFrom_preserves_order_witness :
    [newEnvFromEntry "a", newEnvFromEntry "b"].take [newEnvFromEntry "a"].length =
        [newEnvFromEntry "a"] ∧
      ([newEnvFromEntry "a", newEnvFromEntry "b"] = [newEnvFromEntry "a"] ∨
        [newEnvFromEntry "a", newEnvFromEntry "b"] =
          [newEnvFromEntry "a"] ++ [newEnvFromEntry "b"]) :=
  appendEnvFrom_preserves_order [newEnvFromEntry "a"]
    [newEnvFromEntry "a", newEnvFromEntry "b"] "b" rfl

/-- C9: `appendEnvFrom` dereferences each scanned entry with no nil check:
it is total whenever every pre-existing entry carries a secret reference, and
an input whose entry only references a config map makes the scan dereference
nil (a Go panic, the `none` result). -/
theorem appendEnvFrom_requires_secretRef (envList : List EnvFromSource) (secret : String)
    (h : ∀ env, env ∈ envList → env.secretRef.isSome = true) :
    (appendEnvFrom envList secret).isSome = true ∧
      appendEnvFrom [{ configMapRef := some "config", secretRef := none }] secret = none := by
  constructor
  · have hs := containsSecretRef_isSome envList secret h
    cases hc : containsSecretRef envList secret with
    | none => rw [hc] at hs; simp at hs
    | some b => cases b <;> simp [appendEnvFrom, hc]
  · rfl

/-- Witness for C9: a single well-formed entry naming a different secret. -/
theorem appendEnvFrom_requires_secretRef_witness :
    (∀ env, env ∈ [{ configMapRef := none, secretRef := some { name := "other" } }] →
        (EnvFromSource.secretRef env).isSome = true) ∧
      ((appendEnvFrom [{ configMapRef := none, secretRef := some { name := "other" } }]
          "mysecret").isSome = true ∧
        appendEnvFrom [{ configMapRef := some "config", secretRef := none }] "mysecret" = none) :=
  ⟨by decide, appendEnvFrom_requires_secretRef
    [{ configMapRef := none, secretRef := some { name := "other" } }] "mysecret" (by decide)⟩

/-! ## Claims about `Binder.update` -/

/-- C4: when the workload object reached by the update loop lacks the nested
path `spec.template.spec.containers`, the loop fails hard with an error
naming the path and the object kind, the remaining objects are not processed,
and the store is returned exactly as it was (no update is issued for the
failing object). -/
theorem update_missing_containers_path_fails (secret : String)
    (updateFails : String → Option BinderError) (o : UObject) (rest store : List UObject)
    (h : o.containers = none) :
    updateLoop secret updateFails (o :: rest) store =
      (store, UpdateOutcome.err (BinderError.unsupportedShape nestedPath o.kind)) := by
  simp [updateLoop, h]

/-- Witness for C4: one object of kind CronTab with no containers path. -/
theorem update_missing_containers_path_fails_witness :
    updateLoop "service-binding-request" (fun _ => none)
        [{ name := "app", kind := "CronTab", containers := none }] [] =
      ([], UpdateOutcome.err (BinderError.unsupportedShape nestedPath "CronTab")) :=
  update_missing_containers_path_fails "service-binding-request" (fun _ => none)
    { name := "app", kind := "CronTab", containers := none } [] [] rfl

/-- C5: the update loop is sequential and short-circuiting: over any split of
the object list, the first error or panic produced by the earlier objects is
returned immediately and unmodified, the later objects are never processed,
and the store updates already performed for the earlier objects are kept (no
rollback). -/
theorem update_first_error_short_circuits (secret : String)
    (updateFails : String → Option BinderError) (pre post store : List UObject) :
    updateLoop secret updateFails (pre ++ post) store =
      (match updateLoop secret updateFails pre store with
       | (st, UpdateOutcome.ok) => updateLoop secret updateFails post st
       | (st, UpdateOutcome.err e) => (st, UpdateOutcome.err e)
       | (st, UpdateOutcome.nilDeref) => (st, UpdateOutcome.nilDeref)) := by
  induction pre generalizing store with
  | nil => rfl
  | cons o pre ih =>
    cases hc : o.containers with
    | none => simp [updateLoop, hc]
    | some cs =>
      cases hb : bindContainers secret cs with
      | none => simp [updateLoop, hc, hb]
      | some cs2 =>
        cases hf : updateFails o.name with
        | some e => simp [updateLoop, hc, hb, hf]
        | none =>
          simp [updateLoop, hc, hb, hf]
          exact ih _

/-! ## Provenance of envFrom entries through `Binder.update` -/

theorem bindContainers_entries (secret : String) (cs : List Container) :
    ∀ cs2, bindContainers secret cs = some cs2 →
      ∀ env, env ∈ containersEnvEntries cs2 →
        env ∈ containersEnvEntries cs ∨ env = newEnvFromEntry secret := by
  induction cs with
  | nil =>
    intro cs2 h env hm
    simp [bindContainers] at h
    subst h
    simp [containersEnvEntries] at hm
  | cons c rest ih =>
    intro cs2 h env hm
    cases ha : appendEnvFrom c.envFrom secret with
    | none => simp [bindContainers, ha] at h
    | some l =>
      cases hr : bindContainers secret rest with
      | none => simp [bindContainers, ha, hr] at h
      | some rest2 =>
        simp [bindContainers, ha, hr] at h
        subst h
        simp [containersEnvEntries] at hm
        rcases hm with hm | hm
        · rcases appendEnvFrom_cases c.envFrom l secret ha with h1 | h1
          · subst h1
            exact Or.inl (by simp [containersEnvEntries, hm])
          · subst h1
            rcases List.mem_append.mp hm with h2 | h2
            · exact Or.inl (by simp [containersEnvEntries, h2])
            · simp at h2
              exact Or.inr h2
        · rcases ih rest2 hr env hm with h2 | h2
          · exact Or.inl (by simp [containersEnvEntries, h2])
          · exact Or.inr h2

theorem storeUpdate_entries (o : UObject) (env : EnvFromSource) :
    ∀ store, env ∈ storeEnvEntries (storeUpdate store o) →
      env ∈ storeEnvEntries store ∨ env ∈ objEnvEntries o := by
  intro store
  induction store with
  | nil => intro h; simp [storeUpdate, storeEnvEntries] at h
  | cons x rest ih =>
    intro h
    by_cases hx : x.name = o.name
    · simp [storeUpdate, storeEnvEntries, hx] at h
      rcases h with h | h
      · exact Or.inr h
      · rcases ih h with h2 | h2
        · exact Or.inl (by simp [storeEnvEntries, h2])
        · exact Or.inr h2
    · simp [storeUpdate, storeEnvEntries, hx] at h
      rcases h with h | h
      · exact Or.inl (by simp [storeEnvEntries, h])
      · rcases ih h with h2 | h2
        · exact Or.inl (by simp [storeEnvEntries, h2])
        · exact Or.inr h2

theorem updateLoop_entries (secret : String) (f : String → Option BinderError) :
    ∀ (objList : List UObject), ∀ (store : List UObject), ∀ (env : EnvFromSource),
      env ∈ storeEnvEntries (updateLoop secret f objList store).1 →
      env ∈ storeEnvEntries store ∨ env ∈ storeEnvEntries objList ∨
        env = newEnvFromEntry secret := by
  intro objList
  induction objList with
  | nil =>
    intro store env h
    simp [updateLoop] at h
    exact Or.inl h
  | cons o rest ih =>
    intro store env h
    cases hc : o.containers with
    | none =>
      simp [updateLoop, hc] at h
      exact Or.inl h
    | some cs =>
      cases hb : bindContainers secret cs with
      | none =>
        simp [updateLoop, hc, hb] at h
        exact Or.inl h
      | some cs2 =>
        cases hf : f o.name with
        | some e =>
          simp [updateLoop, hc, hb, hf] at h
          exact Or.inl h
        | none =>
          simp [updateLoop, hc, hb, hf] at h
          rcases ih (storeUpdate store { o with containers := some cs2 }) env h with h1 | h1 | h1
          · rcases storeUpdate_entries { o with containers := some cs2 } env store h1 with h2 | h2
            · exact Or.inl h2
            · rcases bindContainers_entries secret cs cs2 hb env
                (by simpa [objEnvEntries] using h2) with h3 | h3
              · exact Or.inr (Or.inl (by simp [storeEnvEntries, objEnvEntries, hc, h3]))
              · exact Or.inr (Or.inr h3)
          · exact Or.inr (Or.inl (by simp [storeEnvEntries, h1]))
          · exact Or.inr (Or.inr h1)

/-- C8: every envFrom entry found in the store after `Binder.update` either
was already in the store, came from one of the processed objects, or is the
injected entry, whose secret reference names exactly the metadata name of the
service binding request — never any other field of the request. -/
theorem update_injects_only_sbr_name (b : Binder) (objList store : List UObject)
    (env : EnvFromSource) (h : env ∈ storeEnvEntries (b.update objList store).1) :
    env ∈ storeEnvEntries store ∨ env ∈ storeEnvEntries objList ∨
      env.secretRef = some { name := b.sbr.name } := by
  rcases updateLoop_entries b.sbr.name b.updateFails objList store env h with h1 | h1 | h1
  · exact Or.inl h1
  · exact Or.inr (Or.inl h1)
  · refine Or.inr (Or.inr ?_)
    rw [h1]
    rfl

/-- Witness for C8: binding the sample deployment injects exactly the entry
named after the request. -/
theorem update_injects_only_sbr_name_witness :
    newEnvFromEntry "service-binding-request" ∈
        storeEnvEntries (sampleBinder.update [sampleDeployment] [sampleDeployment]).1 ∧
      (newEnvFromEntry "service-binding-request" ∈ storeEnvEntries [sampleDeployment] ∨
        newEnvFromEntry "service-binding-request" ∈ storeEnvEntries [sampleDeployment] ∨
        (newEnvFromEntry "service-binding-request").secretRef =
          some { name := sampleBinder.sbr.name }) :=
  ⟨by decide, update_injects_only_sbr_name sampleBinder [sampleDeployment] [sampleDeployment]
    (newEnvFromEntry "service-binding-request") (by decide)⟩

/-! ## Claim about `Binder.getListGVK` -/

/-- C6: `getListGVK` lower-cases the requested resource kind and resolves it
through a fixed, closed table: deployment and deploymentconfig map to their
list GVKs, and every other string is an unsupported-kind error naming the
kind — no default descriptor exists. -/
theorem getListGVK_closed_table (b : Binder) :
    b.getListGVK =
      (if stringsToLower b.sbr.applicationSelector.resourceKind = "deployment" then
        Except.ok { group := "apps", version := "v1", kind := "DeploymentList" }
      else if stringsToLower b.sbr.applicationSelector.resourceKind = "deploymentconfig" then
        Except.ok { group := "apps.openshift.io", version := "v1", kind := "DeploymentConfigList" }
      else
        Except.error ("resource kind " ++ stringsToLower b.sbr.applicationSelector.resourceKind ++
          " is not supported by this operator")) := by
  by_cases hd : stringsToLower b.sbr.applicationSelector.resourceKind = "deployment"
  · simp [Binder.getListGVK, Binder.getResourceKind, hd]
  · by_cases hc : stringsToLower b.sbr.applicationSelector.resourceKind = "deploymentconfig"
    · simp [Binder.getListGVK, Binder.getResourceKind, hd, hc]
    · simp [Binder.getListGVK, Binder.getResourceKind, hd, hc]

/-! ## Claims about `OLM.SelectCRDByGVK` -/

theorem selectCRDLoop_group_irrelevant (g1 g2 v k : String) (us : List UVal) :
    selectCRDLoop { group := g1, version := v, kind := k } us =
      selectCRDLoop { group := g2, version := v, kind := k } us := by
  induction us with
  | nil => rfl
  | cons u rest ih => simp only [selectCRDLoop, ih]

/-- C10: the requested group is never inspected while matching descriptors:
two invocations over the same store whose requested GVKs differ only in the
group return identical results. -/
theorem SelectCRDByGVK_ignores_group (o : OLM) (g1 g2 v k : String) :
    o.SelectCRDByGVK { group := g1, version := v, kind := k } =
      o.SelectCRDByGVK { group := g2, version := v, kind := k } := by
  cases h : o.ListCSVOwnedCRDs with
  | error e => simp [OLM.SelectCRDByGVK, h]
  | ok owned => simp [OLM.SelectCRDByGVK, h, selectCRDLoop_group_irrelevant g1 g2 v k owned]

theorem selectCRDLoop_eq_filter (gvk : GroupVersionKind) (us : List UVal) :
    ∀ crds, loopCRDDescritions us = Except.ok crds →
      selectCRDLoop gvk us = Except.ok (crds.filter (specMatchesGVK gvk)) := by
  induction us with
  | nil =>
    intro crds h
    simp [loopCRDDescritions] at h
    subst h
    rfl
  | cons u rest ih =>
    intro crds h
    cases hcu : fromUnstructuredCRD u with
    | error e => simp [loopCRDDescritions, hcu] at h
    | ok crd =>
      cases hrest : loopCRDDescritions rest with
      | error e => simp [loopCRDDescritions, hcu, hrest] at h
      | ok crds2 =>
        simp [loopCRDDescritions, hcu, hrest] at h
        subst h
        have ihr := ih crds2 hrest
        by_cases hk : stringsToLower crd.kind = stringsToLower gvk.kind
        · by_cases hv : crd.version = ""
          · simp [selectCRDLoop, hcu, ihr, List.filter_cons, specMatchesGVK, hk, hv]
          · by_cases hvv : stringsToLower gvk.version = stringsToLower crd.version
            · simp [selectCRDLoop, hcu, ihr, List.filter_cons, specMatchesGVK, hk, hv, hvv]
            · simp [selectCRDLoop, hcu, ihr, List.filter_cons, specMatchesGVK, hk, hv, hvv]
        · simp [selectCRDLoop, hcu, ihr, List.filter_cons, specMatchesGVK, hk]

/-- C2: over a namespace whose packaging objects list and convert
successfully, `SelectCRDByGVK` returns the first descriptor, in flattening
order, whose kind matches case-insensitively and whose version — only when
declared non-empty — matches case-insensitively; with no matching descriptor
it returns `none` with no error. -/
theorem SelectCRDByGVK_first_matching_descriptor (o : OLM) (gvk : GroupVersionKind)
    (owned : List UVal) (crds : List CRDDescription)
    (h1 : o.ListCSVOwnedCRDs = Except.ok owned)
    (h2 : loopCRDDescritions owned = Except.ok crds) :
    o.SelectCRDByGVK gvk = Except.ok ((crds.filter (specMatchesGVK gvk)).head?) := by
  simp [OLM.SelectCRDByGVK, h1, selectCRDLoop_eq_filter gvk owned crds h2]
  intro hall
  exact (List.find?_eq_none.mpr (fun x hx => by simp [hall x hx])).symm

/-- Witness for C2: two descriptors with kind database and versions v1alpha1
and v2; requesting Database v1alpha1 selects the first. -/
theorem SelectCRDByGVK_first_matching_descriptor_witness :
    selectOLM.SelectCRDByGVK
        { group := "postgresql.example.com", version := "v1alpha1", kind := "Database" } =
      Except.ok (some
        { name := "databases.postgresql.example.com", version := "v1alpha1", kind := "database" }) :=
  (SelectCRDByGVK_first_matching_descriptor selectOLM
    { group := "postgresql.example.com", version := "v1alpha1", kind := "Database" }
    [UVal.map [("name", UVal.str "databases.postgresql.example.com"),
               ("version", UVal.str "v1alpha1"),
               ("kind", UVal.str "database")],
     UVal.map [("name", UVal.str "databases.postgresql.example.com"),
               ("version", UVal.str "v2"),
               ("kind", UVal.str "database")]]
    [{ name := "databases.postgresql.example.com", version := "v1alpha1", kind := "database" },
     { name := "databases.postgresql.example.com", version := "v2", kind := "database" }]
    rfl rfl).trans rfl

/-! ## Claim about `OLM.ListGVKsFromCSVNamespacedName` -/

/-- C1 (counter-evidence): on a store holding one CSV that owns the Database
descriptor, `ListGVKsFromCSVNamespacedName` converts the CSV object itself
into a CRD description — it never reads `spec.customresourcedefinitions.owned`
— and returns the GVK built from the top-level CSV fields, while the
behaviour worded by the spec (extract the owned descriptors, then map them)
returns the GVK of the owned Database descriptor; the two results differ. -/
theorem ListGVKsFromCSVNamespacedName_converts_csv_itself :
    sampleOLM.ListGVKsFromCSVNamespacedName { ns := "binder", name := "db-operator.v0.0.1" } =
        Except.ok [{ group := "", version := "", kind := "ClusterServiceVersion" }] ∧
      sampleOLM.specListGVKsForPackagingObject { ns := "binder", name := "db-operator.v0.0.1" } =
        Except.ok [{ group := "postgresql.example.com", version := "v1alpha1", kind := "Database" }] ∧
      ({ group := "", version := "", kind := "ClusterServiceVersion" } : GroupVersionKind) ≠
        { group := "postgresql.example.com", version := "v1alpha1", kind := "Database" } :=
  ⟨rfl, rfl, by decide⟩

end SBO
